import Mathlib

/-!
Verification development for the Site Kit data-store runtime.

The development shallowly embeds, in Lean 4:
* the `core/ui` data store (actions `setValue` / `setValues`, its reducer and
  the `getValue` selector), translated from the JavaScript source;
* the runtime components that the repository's stores are built on — the
  Resolver Tracker, the Effect Interpreter, the Store Combinator and the
  Fetch Store Factory.  Their implementation files are not part of the
  source tree under study (only callers and tests are), so those components
  are modelled from the specification document, as noted on each definition.

All definitions are executable; theorems about them follow at the end.
-/

namespace SiteKit

/-! ## The `core/ui` data store (translated from the source)

Source: the `core/ui` store module (`SET_VALUES` / `SET_VALUE` action types,
`initialState`, `actions.setValue`, `actions.setValues`, the reducer, and
`selectors.getValue`).

JavaScript values stored in the ui state are modelled by `UIValue`; a JS
`undefined` read is modelled by `Option.none`, so the state is a total
function `String → Option UIValue` (reading an absent object property in JS
yields `undefined`).  Object keys are strings, as they are after JS computed
property-key coercion. -/

/-- A defined JavaScript value held in the `core/ui` state. -/
inductive UIValue : Type where
  | num (n : Int)
  | boolean (b : Bool)
  | str (s : String)
deriving DecidableEq, Repr

/-- The `core/ui` state: a map from keys to values; `none` models `undefined`. -/
def UIState : Type := String → Option UIValue

/-- Action type constant `SET_VALUES` from the source. -/
def SET_VALUES : String := "SET_VALUES"

/-- Action type constant `SET_VALUE` from the source. -/
def SET_VALUE : String := "SET_VALUE"

/-- The payload of a `core/ui` action record, as built by the source's action
creators: `setValues` produces `{ values }`, `setValue` produces
`{ key, value }`.  A `values` object is an association list (JS object
literals cannot repeat a key; later spread entries win, matched by the
left-to-right fold in the reducer below). -/
inductive UIPayload : Type where
  | values (values : List (String × UIValue))
  | keyValue (key : String) (value : UIValue)
deriving DecidableEq

/-- A Redux-style action record `{ type, payload }`. -/
structure UIAction : Type where
  type : String
  payload : UIPayload
deriving DecidableEq

/-- `actions.setValue( key, value )` from the source: `invariant( key, 'key is
required.' )` throws on a falsy key (the empty string, for string keys),
modelled as `Except.error`; otherwise it returns the action record
`{ payload: { key, value }, type: SET_VALUE }`. -/
def setValue (key : String) (value : UIValue) : Except String UIAction :=
  if key = "" then .error "key is required."
  else .ok { type := SET_VALUE, payload := .keyValue key value }

/-- `actions.setValues( values )` from the source: returns
`{ payload: { values }, type: SET_VALUES }` (the `isPlainObject` invariant is
enforced by the type of `values` here). -/
def setValues (values : List (String × UIValue)) : UIAction :=
  { type := SET_VALUES, payload := .values values }

/-- Overwrite one key of a state, as JS object spread `{ ...state, [key]: value }`. -/
def updState (s : UIState) (key : String) (value : UIValue) : UIState :=
  fun k => if k = key then some value else s k

/-- The `core/ui` reducer from the source: `switch ( type )` with a
`SET_VALUES` case returning `{ ...state, ...values }`, a `SET_VALUE` case
returning `{ ...state, [ key ]: value }`, and a default case returning the
state unchanged.  A payload whose shape does not match the action type (never
produced by the action creators) falls through to the unchanged state. -/
def uiReducer (state : UIState) (a : UIAction) : UIState :=
  if a.type = SET_VALUES then
    match a.payload with
    | .values vs => vs.foldl (fun s kv => updState s kv.1 kv.2) state
    | _ => state
  else if a.type = SET_VALUE then
    match a.payload with
    | .keyValue key value => updState state key value
    | _ => state
  else state

/-- `selectors.getValue( state, key )` from the source: `return state[ key ]`. -/
def getValue (state : UIState) (key : String) : Option UIValue :=
  state key

/-- The `core/ui` `initialState` from the source:
`{ useInViewResetCount: 0, isOnline: true }`. -/
def uiInitialState : UIState :=
  fun k =>
    if k = "useInViewResetCount" then some (.num 0)
    else if k = "isOnline" then some (.boolean true)
    else none

/-- The keys an action record writes to: the single payload key for a
`SET_VALUE` record, every key of the `values` object for a `SET_VALUES`
record, and none for any other record. -/
def touchedKeys (a : UIAction) : List String :=
  if a.type = SET_VALUES then
    match a.payload with
    | .values vs => vs.map Prod.fst
    | _ => []
  else if a.type = SET_VALUE then
    match a.payload with
    | .keyValue key _ => [key]
    | _ => []
  else []

/-- Apply a list of action records to a state, left to right. -/
def applyActions (acts : List UIAction) (s : UIState) : UIState :=
  acts.foldl uiReducer s

/-! ## Resolution-Key serialization

Modelled from the spec: the Resolver Tracker's argument serialization
(`create-fetch-store` / resolver-cache implementation absent from the source
tree).  The spec requires "a stable string (same logical arguments,
regardless of ordering of object keys, must serialize identically)" and
suggests sorted-key serialization.  An argument object is an association
list of string keys to values; serialization renders the entries in sorted
key order. -/

/-- The keys of an argument object, in sorted order. -/
def sortedKeys {V : Type} (args : List (String × V)) : List String :=
  (args.map Prod.fst).insertionSort (· ≤ ·)

/-- Render one entry of the argument object; an absent key (impossible for
keys drawn from the object itself) renders as the bare key. -/
def renderEntry {V : Type} (render : V → String) (args : List (String × V))
    (k : String) : String :=
  match args.lookup k with
  | some v => k ++ ":" ++ render v
  | none => k

/-- Modelled from the spec: the stable serialization of an argument object
into a Resolution Key component — entries rendered in sorted key order,
joined by commas. -/
def serializeArgs {V : Type} (render : V → String)
    (args : List (String × V)) : String :=
  String.intercalate "," ((sortedKeys args).map (renderEntry render args))

/-! ## Resolver Tracker

Modelled from the spec (§4.2); the tracker implementation is not part of the
source tree under study.  Per key (the Resolution Key string) the tracker
holds a state `NOT_STARTED → IN_FLIGHT → FINISHED`:
* `resolve` on a key with no registered resolver is a no-op resolving
  immediately;
* `resolve` on `NOT_STARTED` starts the resolver coroutine once (allocating
  a fresh run identifier — the pending promise) and moves to `IN_FLIGHT`;
* `resolve` on `IN_FLIGHT` returns the same pending promise, starting
  nothing;
* `resolve` on `FINISHED` resolves immediately without re-running;
* completion moves `IN_FLIGHT → FINISHED`; failure moves
  `IN_FLIGHT → NOT_STARTED` and records the rejection on the run the
  callers hold; `invalidate` moves `FINISHED → NOT_STARTED`. -/

/-- The per-key resolution state of the tracker. -/
inductive ResState : Type where
  | notStarted
  | inFlight (run : Nat)
  | finished
deriving DecidableEq, Repr

/-- The outcome a run's promise settles with. -/
inductive RunOutcome : Type where
  | success
  | failure
deriving DecidableEq, Repr

/-- What a `resolve` call hands back to its caller: the pending promise of an
in-flight run, or an immediately-resolved promise. -/
inductive PromiseRef : Type where
  | pending (run : Nat)
  | immediate
deriving DecidableEq, Repr

/-- The Resolver Tracker state: per-key resolution state, a fresh-run
counter, per-key count of resolver-coroutine starts, and the recorded
outcome of each settled run. -/
structure Tracker : Type where
  keyState : String → ResState
  nextRun : Nat
  startCount : String → Nat
  outcome : Nat → Option RunOutcome

/-- The tracker before any resolution has been requested. -/
def Tracker.initial : Tracker :=
  { keyState := fun _ => .notStarted
    nextRun := 0
    startCount := fun _ => 0
    outcome := fun _ => none }

/-- Pointwise update of a map with string keys. -/
def updS {α : Type} (f : String → α) (k : String) (v : α) : String → α :=
  fun k' => if k' = k then v else f k'

/-- Pointwise update of a map with natural-number keys. -/
def updN {α : Type} (f : Nat → α) (k : Nat) (v : α) : Nat → α :=
  fun k' => if k' = k then v else f k'

/-- Modelled from the spec: `resolve(key)` against a tracker, where `hr key`
says whether a resolver coroutine is registered for the key.  Returns the
new tracker state and the promise handed to the caller. -/
def stepResolve (hr : String → Bool) (k : String) (t : Tracker) :
    Tracker × PromiseRef :=
  if hr k then
    match t.keyState k with
    | .notStarted =>
        ({ keyState := updS t.keyState k (.inFlight t.nextRun)
           nextRun := t.nextRun + 1
           startCount := updS t.startCount k (t.startCount k + 1)
           outcome := t.outcome }, .pending t.nextRun)
    | .inFlight r => (t, .pending r)
    | .finished => (t, .immediate)
  else (t, .immediate)

/-- Modelled from the spec: the in-flight resolver coroutine for `k` runs to
successful completion — the key becomes `FINISHED` and the run's promise
settles successfully. -/
def stepComplete (k : String) (t : Tracker) : Tracker :=
  match t.keyState k with
  | .inFlight r =>
      { t with keyState := updS t.keyState k .finished
               outcome := updN t.outcome r (some .success) }
  | _ => t

/-- Modelled from the spec: the in-flight resolver coroutine for `k` fails —
the key transitions back to `NOT_STARTED` (not `FINISHED`) and the run's
promise settles with a rejection, observed by every caller holding it. -/
def stepFail (k : String) (t : Tracker) : Tracker :=
  match t.keyState k with
  | .inFlight r =>
      { t with keyState := updS t.keyState k .notStarted
               outcome := updN t.outcome r (some .failure) }
  | _ => t

/-- Modelled from the spec: explicit invalidation, `FINISHED → NOT_STARTED`. -/
def stepInvalidate (k : String) (t : Tracker) : Tracker :=
  match t.keyState k with
  | .finished => { t with keyState := updS t.keyState k .notStarted }
  | _ => t

/-- One tracker event: a `resolve` call for a key, or the completion,
failure, or invalidation of a key's resolution. -/
inductive TrackerCmd : Type where
  | resolve (k : String)
  | complete (k : String)
  | fail (k : String)
  | invalidate (k : String)
deriving DecidableEq, Repr

/-- Run one tracker event. -/
def stepCmd (hr : String → Bool) (t : Tracker) : TrackerCmd → Tracker
  | .resolve k => (stepResolve hr k t).1
  | .complete k => stepComplete k t
  | .fail k => stepFail k t
  | .invalidate k => stepInvalidate k t

/-- Run a sequence of tracker events. -/
def runCmds (hr : String → Bool) (t : Tracker) : List TrackerCmd → Tracker
  | [] => t
  | c :: cs => runCmds hr (stepCmd hr t c) cs

/-- The promises handed back, in order, to the `resolve` callers for key `k`
over a sequence of tracker events. -/
def resolveReturns (hr : String → Bool) (t : Tracker) (k : String) :
    List TrackerCmd → List PromiseRef
  | [] => []
  | .resolve k' :: cs =>
      if k' = k then
        (stepResolve hr k' t).2 ::
          resolveReturns hr (stepResolve hr k' t).1 k cs
      else resolveReturns hr (stepResolve hr k' t).1 k cs
  | c :: cs => resolveReturns hr (stepCmd hr t c) k cs

/-! ## Effect Interpreter

Modelled from the spec (§4.1, §9); the interpreter implementation is not
part of the source tree under study.  A coroutine is "a function returning a
lazy sequence of Effect Descriptors, interpreted by a driver loop that
resumes it with each effect's result": `Coro E R A` either finishes with a
return value or yields one effect descriptor and continues with that
effect's result.  The interpreter dispatches each yielded effect to the
control handler `h`, awaits its result, feeds it back, and records a trace
of dispatch/completion events. -/

/-- A coroutine over effect descriptors `E`, effect results `R`, and return
value `A`: the lazy effect sequence of the spec. -/
inductive Coro (E R A : Type) : Type where
  | done (a : A)
  | yld (e : E) (k : R → Coro E R A)

/-- One observable interpreter event: an effect descriptor handed to its
control handler, or a handler completing with its result (the result is fed
back into the coroutine at that moment). -/
inductive TraceEvent (E R : Type) : Type where
  | dispatched (e : E)
  | completed (e : E) (r : R)
deriving DecidableEq, Repr

/-- Modelled from the spec: the interpreter's driver loop.  It requests the
next effect, dispatches it to the control handler `h`, awaits the handler's
result, feeds the result back into the coroutine, and repeats until the
sequence is exhausted; it returns the coroutine's final value together with
the ordered trace of dispatch/completion events. -/
def interpret {E R A : Type} (h : E → R) : Coro E R A → A × List (TraceEvent E R)
  | .done a => (a, [])
  | .yld e k =>
      let r := h e
      let rest := interpret h (k r)
      (rest.1, .dispatched e :: .completed e r :: rest.2)

/-- The effect descriptors a coroutine yields, in order, when driven with
handler `h`. -/
def yieldedEffects {E R A : Type} (h : E → R) : Coro E R A → List E
  | .done _ => []
  | .yld e k => e :: yieldedEffects h (k (h e))

/-- The strictly sequential trace over a list of effects: each effect is
dispatched and its handler completed before the next effect is dispatched,
with no reordering or batching. -/
def sequentialTrace {E R : Type} (h : E → R) : List E → List (TraceEvent E R)
  | [] => []
  | e :: es => .dispatched e :: .completed e (h e) :: sequentialTrace h es

/-! ## Fetch Store Factory

Modelled from the spec (§4.5) and the repository's own test
(`idea-state.test.js`); the `createFetchStore` implementation is not part of
the source tree under study.  The generated fetch action:
* derives `params` from its arguments via `argsToParams` and validates them
  synchronously via `validateParams` — a validation throw fails the dispatch
  before any state change or network effect;
* otherwise marks `isFetching[key] = true` for the serialized-params key and
  issues the `controlCallback` network call (logged in `controlCalls`);
* on a successful response stores it under `data[key]` and clears
  `isFetching`/`error`;
* on a rejected response stores the error under `error[key]` and clears
  `isFetching`.  The dispatch promise then *resolves* with
  `{ response, error }` — the repository's test
  (`idea-state.test.js`, "dispatches an error if the request fails") awaits
  the dispatch and destructures `{ response, error }` from its resolved
  value, with `response` undefined and `error` the network error. -/

/-- The error object carried by a rejected network call (`{ code, message }`
of the spec's network boundary). -/
structure FetchError : Type where
  code : String
  message : String
deriving DecidableEq, Repr

/-- A Fetch Descriptor: how the generated action derives, validates, and
serializes its params (`validateParams` returns `some err` where the
JavaScript function throws). -/
structure FetchDescriptor (Args P : Type) : Type where
  argsToParams : Args → P
  validateParams : P → Option FetchError
  serializeParams : P → String

/-- The state slice a fetch store tracks, keyed by serialized params, plus a
log of every `controlCallback` invocation issued (newest last). -/
structure FetchState (R : Type) : Type where
  data : String → Option R
  isFetching : String → Bool
  error : String → Option FetchError
  controlCalls : List String

/-- A fetch-store state with no data, nothing in flight, no errors, and no
control calls issued. -/
def FetchState.empty {R : Type} : FetchState R :=
  { data := fun _ => none
    isFetching := fun _ => false
    error := fun _ => none
    controlCalls := [] }

/-- The value a fetch dispatch resolves with: `{ response, error }`. -/
structure FetchResult (R : Type) : Type where
  response : Option R
  error : Option FetchError
deriving DecidableEq, Repr

/-- Modelled from the spec: the synchronous opening segment of the generated
fetch action, up to and including issuing the network call.  `argsToParams`
and `validateParams` run first; a validation throw rejects the dispatch with
the state untouched and no `controlCallback` invocation.  Otherwise
`isFetching[key]` is set and the `controlCallback` invocation for `key` is
issued (appended to the log); the serialized-params key of the now-pending
request is returned. -/
def startFetch {Args P R : Type} (d : FetchDescriptor Args P) (args : Args)
    (st : FetchState R) : FetchState R × Except FetchError String :=
  match d.validateParams (d.argsToParams args) with
  | some e => (st, .error e)
  | none =>
      ({ st with
          isFetching := updS st.isFetching
            (d.serializeParams (d.argsToParams args)) true
          controlCalls := st.controlCalls ++
            [d.serializeParams (d.argsToParams args)] },
        .ok (d.serializeParams (d.argsToParams args)))

/-- Modelled from the spec and the repository's test: the settlement of the
pending network call for `key`.  On success the response is stored under
`data[key]` and `isFetching`/`error` are cleared; on rejection the error is
stored under `error[key]` and `isFetching` is cleared.  Either way the
dispatch resolves with `{ response, error }`. -/
def settleFetch {R : Type} (key : String) (net : Except FetchError R)
    (st : FetchState R) : FetchState R × FetchResult R :=
  match net with
  | .ok r =>
      ({ st with
          data := updS st.data key (some r)
          isFetching := updS st.isFetching key false
          error := updS st.error key none },
       { response := some r, error := none })
  | .error e =>
      ({ st with
          error := updS st.error key (some e)
          isFetching := updS st.isFetching key false },
       { response := none, error := some e })

/-- A full dispatch of the generated fetch action: validate and issue the
network call, then settle it with the network outcome `net`.  A validation
throw is the only rejection of the dispatch promise; a network rejection
resolves the dispatch with `{ response: undefined, error }`. -/
def dispatchFetch {Args P R : Type} (d : FetchDescriptor Args P) (args : Args)
    (net : Except FetchError R) (st : FetchState R) :
    FetchState R × Except FetchError (FetchResult R) :=
  match startFetch d args st with
  | (st', .error e) => (st', .error e)
  | (_, .ok key) =>
      ((settleFetch key net (startFetch d args st).1).1,
        .ok (settleFetch key net (startFetch d args st).1).2)

/-- A concrete fetch descriptor with trivially valid params, used to
evaluate the model on concrete inputs. -/
def demoFetch : FetchDescriptor Unit Unit :=
  { argsToParams := fun _ => ()
    validateParams := fun _ => none
    serializeParams := fun _ => "params" }

/-- A concrete fetch descriptor whose params always fail validation, used to
evaluate the model on concrete inputs. -/
def demoFetchInvalid : FetchDescriptor Unit Unit :=
  { argsToParams := fun _ => ()
    validateParams := fun _ =>
      some { code := "invalid_params"
             message := "A valid GA4 propertyID is required." }
    serializeParams := fun _ => "params" }

/-- A concrete network error, shaped like the repository test's fixture. -/
def demoError : FetchError :=
  { code := "internal_server_error", message := "Internal server error" }

/-- The concrete validation error `demoFetchInvalid` throws. -/
def demoValidationError : FetchError :=
  { code := "invalid_params"
    message := "A valid GA4 propertyID is required." }

/-! ## Store Combinator

Modelled from the spec (§4.4); the `combineStores` implementation is not
part of the source tree under study (the source only calls it).  A partial
store definition contributes top-level `initialState` entries, the action
types its reducer handles, and named `actions`/`controls`/`selectors`/
`resolvers`.  Combination concatenates each category and fails with a
`KeyCollisionError` whenever any category would contain the same key twice —
it never silently overwrites one partial's entry with another's. -/

/-- A partial store definition, by the names each category defines
(`initialState` keeps its top-level entries so preservation is statable). -/
structure StorePart (V : Type) : Type where
  initialState : List (String × V)
  reducerCases : List String
  actions : List String
  controls : List String
  selectors : List String
  resolvers : List String

/-- The combination-time error taxonomy of the spec that concerns the
combinator. -/
inductive CombineError : Type where
  | keyCollision
deriving DecidableEq, Repr

/-- All categories of the concatenated partials are free of duplicate keys. -/
def collisionFree {V : Type} (ps : List (StorePart V)) : Prop :=
  (ps.flatMap (fun p => p.initialState.map Prod.fst)).Nodup ∧
  (ps.flatMap (fun p => p.reducerCases)).Nodup ∧
  (ps.flatMap (fun p => p.actions)).Nodup ∧
  (ps.flatMap (fun p => p.controls)).Nodup ∧
  (ps.flatMap (fun p => p.selectors)).Nodup ∧
  (ps.flatMap (fun p => p.resolvers)).Nodup

instance {V : Type} (ps : List (StorePart V)) : Decidable (collisionFree ps) := by
  unfold collisionFree; infer_instance

/-- Modelled from the spec: `combineStores` — merge the partial definitions,
failing with a `KeyCollisionError` at combination time if any two partials
share a top-level `initialState` key, a reducer action-type case, or a name
in `actions`/`controls`/`selectors`/`resolvers`. -/
def combineStores {V : Type} (ps : List (StorePart V)) :
    Except CombineError (StorePart V) :=
  if collisionFree ps then
    .ok { initialState := ps.flatMap (fun p => p.initialState)
          reducerCases := ps.flatMap (fun p => p.reducerCases)
          actions := ps.flatMap (fun p => p.actions)
          controls := ps.flatMap (fun p => p.controls)
          selectors := ps.flatMap (fun p => p.selectors)
          resolvers := ps.flatMap (fun p => p.resolvers) }
  else .error .keyCollision

/-- A concrete partial store definition defining one action name, used to
evaluate the combinator model on concrete inputs. -/
def demoPart : StorePart Unit :=
  { initialState := []
    reducerCases := []
    actions := ["fetchFoo"]
    controls := []
    selectors := []
    resolvers := [] }

/-- Two partial store definitions share a key in some category. -/
def sharesKey {V : Type} (p q : StorePart V) : Prop :=
  (∃ k, k ∈ p.initialState.map Prod.fst ∧ k ∈ q.initialState.map Prod.fst) ∨
  (∃ k, k ∈ p.reducerCases ∧ k ∈ q.reducerCases) ∨
  (∃ k, k ∈ p.actions ∧ k ∈ q.actions) ∨
  (∃ k, k ∈ p.controls ∧ k ∈ q.controls) ∨
  (∃ k, k ∈ p.selectors ∧ k ∈ q.selectors) ∨
  (∃ k, k ∈ p.resolvers ∧ k ∈ q.resolvers)

/-! ## Helper lemmas -/

theorem updState_ne (s : UIState) (key k : String) (v : UIValue)
    (h : k ≠ key) : updState s key v k = s k := by
  simp [updState, h]

theorem foldl_updState_not_mem (vs : List (String × UIValue)) (s : UIState)
    (k : String) (h : k ∉ vs.map Prod.fst) :
    (vs.foldl (fun s kv => updState s kv.1 kv.2) s) k = s k := by
  induction vs generalizing s with
  | nil => rfl
  | cons p ps ih =>
      simp only [List.map_cons, List.mem_cons, not_or] at h
      rw [List.foldl_cons, ih _ h.2, updState_ne _ _ _ _ h.1]

theorem uiReducer_frame (s : UIState) (a : UIAction) (k : String)
    (h : k ∉ touchedKeys a) : uiReducer s a k = s k := by
  unfold uiReducer
  unfold touchedKeys at h
  by_cases h1 : a.type = SET_VALUES
  · rw [if_pos h1] at h ⊢
    match hp : a.payload with
    | .values vs =>
        rw [hp] at h
        exact foldl_updState_not_mem vs s k h
    | .keyValue key v => rfl
  · rw [if_neg h1] at h ⊢
    by_cases h2 : a.type = SET_VALUE
    · rw [if_pos h2] at h ⊢
      match hp : a.payload with
      | .values vs => rfl
      | .keyValue key v =>
          rw [hp] at h
          simp only [List.mem_singleton] at h
          exact updState_ne s key k v h
    · rw [if_neg h2]

theorem applyActions_frame (acts : List UIAction) (s : UIState) (k : String)
    (h : ∀ a ∈ acts, k ∉ touchedKeys a) : applyActions acts s k = s k := by
  induction acts generalizing s with
  | nil => rfl
  | cons a as ih =>
      have hhead : k ∉ touchedKeys a := h a (List.mem_cons_self a as)
      have htail : ∀ b ∈ as, k ∉ touchedKeys b := fun b hb =>
        h b (List.mem_cons_of_mem a hb)
      calc applyActions (a :: as) s k
          = applyActions as (uiReducer s a) k := rfl
        _ = uiReducer s a k := ih (uiReducer s a) htail
        _ = s k := uiReducer_frame s a k hhead

theorem lookup_eq_of_perm {V : Type} (k : String) {l₁ l₂ : List (String × V)}
    (h : l₁.Perm l₂) (nd : (l₁.map Prod.fst).Nodup) :
    l₁.lookup k = l₂.lookup k := by
  induction h with
  | nil => rfl
  | cons x h ih =>
      obtain ⟨xk, xv⟩ := x
      simp only [List.map_cons, List.nodup_cons] at nd
      simp only [List.lookup]
      cases hbeq : k == xk with
      | true => rfl
      | false => exact ih nd.2
  | swap x y l =>
      obtain ⟨xk, xv⟩ := x
      obtain ⟨yk, yv⟩ := y
      simp only [List.map_cons, List.nodup_cons, List.mem_cons] at nd
      simp only [List.lookup]
      cases hky : k == yk with
      | true =>
          cases hkx : k == xk with
          | true =>
              exfalso
              exact nd.1 (Or.inl ((eq_of_beq hky).symm.trans (eq_of_beq hkx)))
          | false => rfl
      | false => rfl
  | trans h₁ h₂ ih₁ ih₂ =>
      exact (ih₁ nd).trans (ih₂ ((h₁.map Prod.fst).nodup nd))

theorem sortedKeys_perm_eq {V : Type} {l₁ l₂ : List (String × V)}
    (h : l₁.Perm l₂) : sortedKeys l₁ = sortedKeys l₂ := by
  apply List.eq_of_perm_of_sorted (r := (· ≤ ·))
  · exact (List.perm_insertionSort _ _).trans
      ((h.map Prod.fst).trans (List.perm_insertionSort _ _).symm)
  · exact List.sorted_insertionSort _ _
  · exact List.sorted_insertionSort _ _

/-! ## Claims about the `core/ui` store -/

/-- Claim C9: in the `core/ui` store, set-then-get round-trips — for every
state, every truthy key `k`, and every value `v`, applying the reducer to
the action record produced by `setValue(k, v)` yields a state in which
`getValue` returns exactly `v` at `k` (a truthy key is exactly one on which
`setValue` does not throw, i.e. returns an action record); and for any key
never set by the applied actions and absent from `initialState`, `getValue`
returns `undefined`. -/
theorem core_ui_set_get_roundtrip :
    (∀ (s : UIState) (k : String) (v : UIValue) (a : UIAction),
        setValue k v = .ok a → getValue (uiReducer s a) k = some v) ∧
    (∀ (acts : List UIAction) (k : String),
        (∀ a ∈ acts, k ∉ touchedKeys a) → uiInitialState k = none →
        getValue (applyActions acts uiInitialState) k = none) := by
  constructor
  · intro s k v a ha
    unfold setValue at ha
    by_cases hk : k = ""
    · rw [if_pos hk] at ha
      exact absurd ha (by simp)
    · rw [if_neg hk] at ha
      cases ha
      simp [getValue, uiReducer, SET_VALUE, SET_VALUES, updState]
  · intro acts k hacts hinit
    unfold getValue
    rw [applyActions_frame acts uiInitialState k hacts]
    exact hinit

/-- Witness for C9 at concrete inputs: setting key `"foo"` to `7` makes
`getValue` return `7` at `"foo"`, and after that same action the key
`"bar"`, untouched and absent from `initialState`, still reads `undefined`. -/
theorem core_ui_set_get_roundtrip_witness :
    (setValue "foo" (UIValue.num 7) =
        .ok ⟨SET_VALUE, UIPayload.keyValue "foo" (UIValue.num 7)⟩ ∧
      getValue
        (uiReducer uiInitialState ⟨SET_VALUE, UIPayload.keyValue "foo" (UIValue.num 7)⟩)
        "foo" = some (UIValue.num 7)) ∧
    ((∀ a ∈ [setValues [("foo", UIValue.num 7)]], "bar" ∉ touchedKeys a) ∧
      uiInitialState "bar" = none ∧
      getValue (applyActions [setValues [("foo", UIValue.num 7)]] uiInitialState)
        "bar" = none) :=
  ⟨⟨rfl,
    core_ui_set_get_roundtrip.1 uiInitialState "foo" (UIValue.num 7) _ rfl⟩,
   ⟨by decide, by decide,
    core_ui_set_get_roundtrip.2 [setValues [("foo", UIValue.num 7)]] "bar"
      (by decide) (by decide)⟩⟩

/-- Claim C10: applying the `core/ui` reducer to a `SET_VALUE` action record
changes at most the single key named in the action's payload — every other
key reads the same value as in the input state. -/
theorem core_ui_set_value_frame (s : UIState) (key k' : String) (v : UIValue)
    (h : k' ≠ key) :
    uiReducer s ⟨SET_VALUE, UIPayload.keyValue key v⟩ k' = s k' := by
  have : ¬(SET_VALUE = SET_VALUES) := by decide
  simp only [uiReducer, if_neg this, if_pos rfl]
  exact updState_ne s key k' v h

/-- Witness for C10 at concrete inputs: a `SET_VALUE` of `"foo"` leaves
`"isOnline"` unchanged. -/
theorem core_ui_set_value_frame_witness :
    ("isOnline" : String) ≠ "foo" ∧
    uiReducer uiInitialState ⟨SET_VALUE, UIPayload.keyValue "foo" (UIValue.num 7)⟩
      "isOnline" = uiInitialState "isOnline" :=
  ⟨by decide,
   core_ui_set_value_frame uiInitialState "foo" "isOnline" (UIValue.num 7) (by decide)⟩

/-! ## Tracker step lemmas -/

theorem stepResolve_inFlight (hr : String → Bool) (k : String) (t : Tracker)
    (r : Nat) (hhr : hr k = true) (hin : t.keyState k = .inFlight r) :
    stepResolve hr k t = (t, .pending r) := by
  unfold stepResolve
  rw [if_pos hhr, hin]

theorem stepResolve_notStarted (hr : String → Bool) (k : String) (t : Tracker)
    (hhr : hr k = true) (hns : t.keyState k = .notStarted) :
    stepResolve hr k t =
      ({ keyState := updS t.keyState k (.inFlight t.nextRun)
         nextRun := t.nextRun + 1
         startCount := updS t.startCount k (t.startCount k + 1)
         outcome := t.outcome }, .pending t.nextRun) := by
  unfold stepResolve
  rw [if_pos hhr, hns]

theorem stepResolve_keyState_frame (hr : String → Bool) (k' k : String)
    (t : Tracker) (hne : k ≠ k') :
    (stepResolve hr k' t).1.keyState k = t.keyState k := by
  unfold stepResolve
  split
  · split
    · simp [updS, hne]
    · rfl
    · rfl
  · rfl

theorem stepResolve_startCount_frame (hr : String → Bool) (k' k : String)
    (t : Tracker) (hne : k ≠ k') :
    (stepResolve hr k' t).1.startCount k = t.startCount k := by
  unfold stepResolve
  split
  · split
    · simp [updS, hne]
    · rfl
    · rfl
  · rfl

theorem stepComplete_keyState_frame (k' k : String) (t : Tracker)
    (hne : k ≠ k') : (stepComplete k' t).keyState k = t.keyState k := by
  unfold stepComplete
  split
  · simp [updS, hne]
  · rfl

theorem stepComplete_startCount (k' : String) (t : Tracker) :
    (stepComplete k' t).startCount = t.startCount := by
  unfold stepComplete
  split <;> rfl

theorem stepFail_keyState_frame (k' k : String) (t : Tracker)
    (hne : k ≠ k') : (stepFail k' t).keyState k = t.keyState k := by
  unfold stepFail
  split
  · simp [updS, hne]
  · rfl

theorem stepFail_startCount (k' : String) (t : Tracker) :
    (stepFail k' t).startCount = t.startCount := by
  unfold stepFail
  split <;> rfl

theorem stepInvalidate_keyState_frame (k' k : String) (t : Tracker)
    (hne : k ≠ k') : (stepInvalidate k' t).keyState k = t.keyState k := by
  unfold stepInvalidate
  split
  · simp [updS, hne]
  · rfl

theorem stepInvalidate_startCount (k' : String) (t : Tracker) :
    (stepInvalidate k' t).startCount = t.startCount := by
  unfold stepInvalidate
  split <;> rfl

/-- While key `k` is in flight with run `r`, any sequence of events that
never completes, fails, or invalidates `k` leaves `k` in flight with `r`,
starts no further resolver run for `k`, and hands every `resolve` caller for
`k` the same pending promise `r`. -/
theorem runCmds_inFlight (hr : String → Bool) (k : String) (r : Nat)
    (cmds : List TrackerCmd) :
    ∀ (t : Tracker),
      hr k = true →
      (∀ c ∈ cmds, c ≠ .complete k ∧ c ≠ .fail k ∧ c ≠ .invalidate k) →
      t.keyState k = .inFlight r →
      (runCmds hr t cmds).keyState k = .inFlight r ∧
      (runCmds hr t cmds).startCount k = t.startCount k ∧
      ∀ p ∈ resolveReturns hr t k cmds, p = PromiseRef.pending r := by
  induction cmds with
  | nil =>
      intro t _ _ hin
      exact ⟨hin, rfl, fun p hp => absurd hp (List.not_mem_nil p)⟩
  | cons c cs ih =>
      intro t hhr hno hin
      have hnoc := hno c (List.mem_cons_self c cs)
      have hnos : ∀ c' ∈ cs, c' ≠ .complete k ∧ c' ≠ .fail k ∧
          c' ≠ .invalidate k := fun c' hc' => hno c' (List.mem_cons_of_mem c hc')
      match c with
      | .resolve k' =>
          by_cases hk : k' = k
          · subst hk
            have hstep := stepResolve_inFlight hr k' t r hhr hin
            have h1 : (stepResolve hr k' t).1 = t := by rw [hstep]
            have h2 : (stepResolve hr k' t).2 = .pending r := by rw [hstep]
            have hrest := ih t hhr hnos hin
            refine ⟨?_, ?_, ?_⟩
            · show (runCmds hr (stepCmd hr t (.resolve k')) cs).keyState k' = _
              rw [show stepCmd hr t (.resolve k') = (stepResolve hr k' t).1 from rfl,
                h1]
              exact hrest.1
            · show (runCmds hr (stepCmd hr t (.resolve k')) cs).startCount k' = _
              rw [show stepCmd hr t (.resolve k') = (stepResolve hr k' t).1 from rfl,
                h1]
              exact hrest.2.1
            · intro p hp
              rw [show resolveReturns hr t k' (.resolve k' :: cs) =
                  (stepResolve hr k' t).2 ::
                    resolveReturns hr (stepResolve hr k' t).1 k' cs from by
                  rw [resolveReturns, if_pos rfl], h1, h2] at hp
              rcases List.mem_cons.mp hp with hp | hp
              · exact hp
              · exact hrest.2.2 p hp
          · have hne : k ≠ k' := fun h => hk h.symm
            have hin' : (stepResolve hr k' t).1.keyState k = .inFlight r := by
              rw [stepResolve_keyState_frame hr k' k t hne, hin]
            have hrest := ih (stepResolve hr k' t).1 hhr hnos hin'
            refine ⟨hrest.1, ?_, ?_⟩
            · show (runCmds hr (stepCmd hr t (.resolve k')) cs).startCount k = _
              rw [show stepCmd hr t (.resolve k') = (stepResolve hr k' t).1 from rfl]
              rw [hrest.2.1, stepResolve_startCount_frame hr k' k t hne]
            · intro p hp
              rw [show resolveReturns hr t k (.resolve k' :: cs) =
                  resolveReturns hr (stepResolve hr k' t).1 k cs from by
                  rw [resolveReturns, if_neg hk]] at hp
              exact hrest.2.2 p hp
      | .complete k' =>
          have hk : k' ≠ k := fun h => hnoc.1 (by rw [h])
          have hne : k ≠ k' := fun h => hk h.symm
          have hin' : (stepComplete k' t).keyState k = .inFlight r := by
            rw [stepComplete_keyState_frame k' k t hne, hin]
          have hrest := ih (stepComplete k' t) hhr hnos hin'
          refine ⟨hrest.1, ?_, ?_⟩
          · rw [show runCmds hr t (.complete k' :: cs) =
                runCmds hr (stepComplete k' t) cs from rfl]
            rw [hrest.2.1, stepComplete_startCount k' t]
          · intro p hp
            rw [show resolveReturns hr t k (.complete k' :: cs) =
                resolveReturns hr (stepComplete k' t) k cs from rfl] at hp
            exact hrest.2.2 p hp
      | .fail k' =>
          have hk : k' ≠ k := fun h => hnoc.2.1 (by rw [h])
          have hne : k ≠ k' := fun h => hk h.symm
          have hin' : (stepFail k' t).keyState k = .inFlight r := by
            rw [stepFail_keyState_frame k' k t hne, hin]
          have hrest := ih (stepFail k' t) hhr hnos hin'
          refine ⟨hrest.1, ?_, ?_⟩
          · rw [show runCmds hr t (.fail k' :: cs) =
                runCmds hr (stepFail k' t) cs from rfl]
            rw [hrest.2.1, stepFail_startCount k' t]
          · intro p hp
            rw [show resolveReturns hr t k (.fail k' :: cs) =
                resolveReturns hr (stepFail k' t) k cs from rfl] at hp
            exact hrest.2.2 p hp
      | .invalidate k' =>
          have hk : k' ≠ k := fun h => hnoc.2.2 (by rw [h])
          have hne : k ≠ k' := fun h => hk h.symm
          have hin' : (stepInvalidate k' t).keyState k = .inFlight r := by
            rw [stepInvalidate_keyState_frame k' k t hne, hin]
          have hrest := ih (stepInvalidate k' t) hhr hnos hin'
          refine ⟨hrest.1, ?_, ?_⟩
          · rw [show runCmds hr t (.invalidate k' :: cs) =
                runCmds hr (stepInvalidate k' t) cs from rfl]
            rw [hrest.2.1, stepInvalidate_startCount k' t]
          · intro p hp
            rw [show resolveReturns hr t k (.invalidate k' :: cs) =
                resolveReturns hr (stepInvalidate k' t) k cs from rfl] at hp
            exact hrest.2.2 p hp

/-! ## Claims about the Resolver Tracker -/

/-- Claim C1: at-most-once resolution — starting from a tracker where key
`k` (a Resolution Key with a registered resolver) has not been resolved,
running any event sequence in which `k` is never completed, failed, or
invalidated, and which contains at least one `resolve` call for `k`,
executes the resolver coroutine for `k` exactly once, and every `resolve`
caller for `k` receives the same single in-flight promise (hence the same
outcome when it settles). -/
theorem resolver_at_most_once (hr : String → Bool) (k : String)
    (cmds : List TrackerCmd) :
    ∀ (t : Tracker),
      hr k = true →
      t.keyState k = .notStarted →
      t.startCount k = 0 →
      (∀ c ∈ cmds, c ≠ .complete k ∧ c ≠ .fail k ∧ c ≠ .invalidate k) →
      TrackerCmd.resolve k ∈ cmds →
      (runCmds hr t cmds).startCount k = 1 ∧
      ∃ r, ∀ p ∈ resolveReturns hr t k cmds, p = PromiseRef.pending r := by
  induction cmds with
  | nil => intro t _ _ _ _ hmem; exact absurd hmem (List.not_mem_nil _)
  | cons c cs ih =>
      intro t hhr hns hsc hno hmem
      have hnoc := hno c (List.mem_cons_self c cs)
      have hnos : ∀ c' ∈ cs, c' ≠ .complete k ∧ c' ≠ .fail k ∧
          c' ≠ .invalidate k := fun c' hc' => hno c' (List.mem_cons_of_mem c hc')
      match c with
      | .resolve k' =>
          by_cases hk : k' = k
          · subst hk
            have hstep := stepResolve_notStarted hr k' t hhr hns
            have h1 : (stepResolve hr k' t).1 =
                { keyState := updS t.keyState k' (.inFlight t.nextRun)
                  nextRun := t.nextRun + 1
                  startCount := updS t.startCount k' (t.startCount k' + 1)
                  outcome := t.outcome } := by rw [hstep]
            have h2 : (stepResolve hr k' t).2 = .pending t.nextRun := by
              rw [hstep]
            have hks : (stepResolve hr k' t).1.keyState k' =
                .inFlight t.nextRun := by rw [h1]; simp [updS]
            have hstart : (stepResolve hr k' t).1.startCount k' = 1 := by
              rw [h1]; simp [updS, hsc]
            have hrest := runCmds_inFlight hr k' t.nextRun cs
              (stepResolve hr k' t).1 hhr hnos hks
            refine ⟨?_, t.nextRun, ?_⟩
            · show (runCmds hr (stepCmd hr t (.resolve k')) cs).startCount k' = 1
              rw [show stepCmd hr t (.resolve k') = (stepResolve hr k' t).1
                  from rfl]
              rw [hrest.2.1, hstart]
            · intro p hp
              rw [show resolveReturns hr t k' (.resolve k' :: cs) =
                  (stepResolve hr k' t).2 ::
                    resolveReturns hr (stepResolve hr k' t).1 k' cs from by
                  rw [resolveReturns, if_pos rfl], h2] at hp
              rcases List.mem_cons.mp hp with hp | hp
              · exact hp
              · exact hrest.2.2 p hp
          · have hne : k ≠ k' := fun h => hk h.symm
            have hmem' : TrackerCmd.resolve k ∈ cs := by
              rcases List.mem_cons.mp hmem with h | h
              · cases h; exact absurd rfl hk
              · exact h
            have hns' : (stepResolve hr k' t).1.keyState k = .notStarted := by
              rw [stepResolve_keyState_frame hr k' k t hne, hns]
            have hsc' : (stepResolve hr k' t).1.startCount k = 0 := by
              rw [stepResolve_startCount_frame hr k' k t hne, hsc]
            have hrest := ih (stepResolve hr k' t).1 hhr hns' hsc' hnos hmem'
            refine ⟨hrest.1, ?_⟩
            obtain ⟨r, hall⟩ := hrest.2
            refine ⟨r, fun p hp => hall p ?_⟩
            rw [show resolveReturns hr t k (.resolve k' :: cs) =
                resolveReturns hr (stepResolve hr k' t).1 k cs from by
                rw [resolveReturns, if_neg hk]] at hp
            exact hp
      | .complete k' =>
          have hk2 : k' ≠ k := fun h => hnoc.1 (by rw [h])
          have hne : k ≠ k' := fun h => hk2 h.symm
          have hmem' : TrackerCmd.resolve k ∈ cs := by
            rcases List.mem_cons.mp hmem with h | h
            · exact TrackerCmd.noConfusion h
            · exact h
          have hns' : (stepComplete k' t).keyState k = .notStarted := by
            rw [stepComplete_keyState_frame k' k t hne, hns]
          have hsc' : (stepComplete k' t).startCount k = 0 := by
            rw [stepComplete_startCount k' t]; exact hsc
          have hrest := ih (stepComplete k' t) hhr hns' hsc' hnos hmem'
          exact ⟨hrest.1, hrest.2⟩
      | .fail k' =>
          have hk2 : k' ≠ k := fun h => hnoc.2.1 (by rw [h])
          have hne : k ≠ k' := fun h => hk2 h.symm
          have hmem' : TrackerCmd.resolve k ∈ cs := by
            rcases List.mem_cons.mp hmem with h | h
            · exact TrackerCmd.noConfusion h
            · exact h
          have hns' : (stepFail k' t).keyState k = .notStarted := by
            rw [stepFail_keyState_frame k' k t hne, hns]
          have hsc' : (stepFail k' t).startCount k = 0 := by
            rw [stepFail_startCount k' t]; exact hsc
          have hrest := ih (stepFail k' t) hhr hns' hsc' hnos hmem'
          exact ⟨hrest.1, hrest.2⟩
      | .invalidate k' =>
          have hk2 : k' ≠ k := fun h => hnoc.2.2 (by rw [h])
          have hne : k ≠ k' := fun h => hk2 h.symm
          have hmem' : TrackerCmd.resolve k ∈ cs := by
            rcases List.mem_cons.mp hmem with h | h
            · exact TrackerCmd.noConfusion h
            · exact h
          have hns' : (stepInvalidate k' t).keyState k = .notStarted := by
            rw [stepInvalidate_keyState_frame k' k t hne, hns]
          have hsc' : (stepInvalidate k' t).startCount k = 0 := by
            rw [stepInvalidate_startCount k' t]; exact hsc
          have hrest := ih (stepInvalidate k' t) hhr hns' hsc' hnos hmem'
          exact ⟨hrest.1, hrest.2⟩

/-- Witness for C1 at concrete inputs: three `resolve` calls for `"key"`
issued before any completion start the resolver once and all receive the
same pending promise. -/
theorem resolver_at_most_once_witness :
    ((fun _ => true) : String → Bool) "key" = true ∧
    Tracker.initial.keyState "key" = ResState.notStarted ∧
    Tracker.initial.startCount "key" = 0 ∧
    (∀ c ∈ [TrackerCmd.resolve "key", TrackerCmd.resolve "key",
        TrackerCmd.resolve "key"],
      c ≠ TrackerCmd.complete "key" ∧ c ≠ TrackerCmd.fail "key" ∧
        c ≠ TrackerCmd.invalidate "key") ∧
    TrackerCmd.resolve "key" ∈ [TrackerCmd.resolve "key",
      TrackerCmd.resolve "key", TrackerCmd.resolve "key"] ∧
    ((runCmds (fun _ => true) Tracker.initial [TrackerCmd.resolve "key",
        TrackerCmd.resolve "key", TrackerCmd.resolve "key"]).startCount "key" = 1 ∧
      ∃ r, ∀ p ∈ resolveReturns (fun _ => true) Tracker.initial "key"
          [TrackerCmd.resolve "key", TrackerCmd.resolve "key",
            TrackerCmd.resolve "key"],
        p = PromiseRef.pending r) :=
  ⟨rfl, rfl, rfl, by decide, by decide,
    resolver_at_most_once (fun _ => true) "key"
      [TrackerCmd.resolve "key", TrackerCmd.resolve "key",
        TrackerCmd.resolve "key"]
      Tracker.initial rfl rfl rfl (by decide) (by decide)⟩

/-- Claim C7: when the resolver coroutine for an in-flight key fails, the
key transitions back to `NOT_STARTED` (not `FINISHED`), the run the callers
hold settles with the rejection, and a later `resolve` call for the same
key starts the resolver coroutine again (a fresh in-flight run, with the
start count incremented). -/
theorem resolver_failure_restarts (hr : String → Bool) (k : String) (r : Nat)
    (t : Tracker) (hhr : hr k = true) (hin : t.keyState k = .inFlight r) :
    (stepFail k t).keyState k = .notStarted ∧
    (stepFail k t).outcome r = some .failure ∧
    (stepResolve hr k (stepFail k t)).2 =
      .pending (stepFail k t).nextRun ∧
    (stepResolve hr k (stepFail k t)).1.keyState k =
      .inFlight (stepFail k t).nextRun ∧
    (stepResolve hr k (stepFail k t)).1.startCount k = t.startCount k + 1 := by
  have h1 : stepFail k t =
      { t with keyState := updS t.keyState k .notStarted
               outcome := updN t.outcome r (some .failure) } := by
    unfold stepFail; rw [hin]
  have hns : (stepFail k t).keyState k = .notStarted := by
    rw [h1]; simp [updS]
  have hstep := stepResolve_notStarted hr k (stepFail k t) hhr hns
  refine ⟨hns, ?_, ?_, ?_, ?_⟩
  · rw [h1]; simp [updN]
  · rw [hstep]
  · rw [hstep]; simp [updS]
  · rw [hstep]
    show updS (stepFail k t).startCount k ((stepFail k t).startCount k + 1) k = _
    rw [stepFail_startCount k t]
    simp [updS]

/-- Witness for C7 at concrete inputs: with `"key"` in flight as run `0`,
failure resets the key, records the rejection on run `0`, and a new
`resolve` starts run `1`. -/
theorem resolver_failure_restarts_witness :
    ((fun _ => true) : String → Bool) "key" = true ∧
    (stepResolve (fun _ => true) "key" Tracker.initial).1.keyState "key" =
      ResState.inFlight 0 ∧
    ((stepFail "key" (stepResolve (fun _ => true) "key" Tracker.initial).1).keyState
        "key" = ResState.notStarted ∧
      (stepFail "key" (stepResolve (fun _ => true) "key" Tracker.initial).1).outcome
        0 = some RunOutcome.failure ∧
      (stepResolve (fun _ => true) "key"
          (stepFail "key" (stepResolve (fun _ => true) "key" Tracker.initial).1)).2 =
        PromiseRef.pending
          (stepFail "key"
            (stepResolve (fun _ => true) "key" Tracker.initial).1).nextRun ∧
      (stepResolve (fun _ => true) "key"
          (stepFail "key"
            (stepResolve (fun _ => true) "key" Tracker.initial).1)).1.keyState
        "key" =
        ResState.inFlight
          (stepFail "key"
            (stepResolve (fun _ => true) "key" Tracker.initial).1).nextRun ∧
      (stepResolve (fun _ => true) "key"
          (stepFail "key"
            (stepResolve (fun _ => true) "key" Tracker.initial).1)).1.startCount
        "key" =
        (stepResolve (fun _ => true) "key" Tracker.initial).1.startCount "key"
          + 1) :=
  ⟨rfl, by decide,
    resolver_failure_restarts (fun _ => true) "key" 0
      (stepResolve (fun _ => true) "key" Tracker.initial).1 rfl (by decide)⟩

/-! ## Claims about the Resolution-Key serialization -/

/-- Claim C5: the Resolution-Key serialization is invariant under
permutation of object-key order — two argument objects containing identical
key/value pairs but differing in key insertion order serialize to the
identical string. -/
theorem serialize_args_stable {V : Type} (render : V → String)
    {l₁ l₂ : List (String × V)} (h : l₁.Perm l₂)
    (nd : (l₁.map Prod.fst).Nodup) :
    serializeArgs render l₁ = serializeArgs render l₂ := by
  unfold serializeArgs
  rw [sortedKeys_perm_eq h]
  congr 1
  apply List.map_congr_left
  intro x _
  unfold renderEntry
  rw [lookup_eq_of_perm x h nd]

/-- Witness for C5 at concrete inputs: the two-entry objects
`{ b: 2, a: 1 }` and `{ a: 1, b: 2 }` serialize identically. -/
theorem serialize_args_stable_witness :
    ([("b", "2"), ("a", "1")] : List (String × String)).Perm
      [("a", "1"), ("b", "2")] ∧
    (([("b", "2"), ("a", "1")] : List (String × String)).map Prod.fst).Nodup ∧
    serializeArgs id [("b", "2"), ("a", "1")] =
      serializeArgs id [("a", "1"), ("b", "2")] :=
  ⟨List.Perm.swap ("a", "1") ("b", "2") [], by decide,
   serialize_args_stable id (List.Perm.swap ("a", "1") ("b", "2") []) (by decide)⟩

/-! ## Claim about the Effect Interpreter -/

/-- Claim C8: the Effect Interpreter applies the effects a coroutine yields
sequentially and exactly in the order yielded — its trace is precisely the
strictly sequential interleaving of the yielded effect sequence, in which
each effect's handler completes (its result fed back to the coroutine)
before the next effect is dispatched, with no reordering or batching. -/
theorem interpreter_sequential {E R A : Type} (h : E → R) (c : Coro E R A) :
    (interpret h c).2 = sequentialTrace h (yieldedEffects h c) := by
  induction c with
  | done a => rfl
  | yld e k ih =>
      show TraceEvent.dispatched e :: TraceEvent.completed e (h e) ::
          (interpret h (k (h e))).2 =
        TraceEvent.dispatched e :: TraceEvent.completed e (h e) ::
          sequentialTrace h (yieldedEffects h (k (h e)))
      rw [ih (h e)]

/-! ## Claims about the Fetch Store Factory -/

/-- Claim C3: for every fetch store and every argument tuple whose derived
params make `validateParams` throw, dispatching the generated fetch action
leaves the state untouched — in particular zero `controlCallback`
invocations are issued — and the dispatch promise is rejected with the
validation error, whatever the network would have answered. -/
theorem fetch_validation_precedes_network {Args P R : Type}
    (d : FetchDescriptor Args P) (args : Args) (st : FetchState R)
    (e : FetchError) (hv : d.validateParams (d.argsToParams args) = some e) :
    startFetch d args st = (st, .error e) ∧
    (startFetch d args st).1.controlCalls = st.controlCalls ∧
    ∀ net : Except FetchError R, dispatchFetch d args net st = (st, .error e) := by
  have hstart : startFetch d args st = (st, .error e) := by
    unfold startFetch; rw [hv]
  refine ⟨hstart, by rw [hstart], fun net => ?_⟩
  unfold dispatchFetch
  rw [hstart]

/-- Witness for C3 at concrete inputs: dispatching `demoFetchInvalid` issues
no control call and rejects with the validation error. -/
theorem fetch_validation_precedes_network_witness :
    demoFetchInvalid.validateParams (demoFetchInvalid.argsToParams ()) =
      some demoValidationError ∧
    (startFetch demoFetchInvalid () (FetchState.empty (R := String)) =
        (FetchState.empty, .error demoValidationError) ∧
      (startFetch demoFetchInvalid ()
        (FetchState.empty (R := String))).1.controlCalls =
        (FetchState.empty (R := String)).controlCalls ∧
      ∀ net : Except FetchError String,
        dispatchFetch demoFetchInvalid () net (FetchState.empty (R := String)) =
          (FetchState.empty, .error demoValidationError)) :=
  ⟨rfl,
    fetch_validation_precedes_network demoFetchInvalid ()
      (FetchState.empty (R := String)) _ rfl⟩

/-- Counterexample to C2 as stated: a concrete dispatch whose
`controlCallback` was invoked and rejected, yet the dispatch promise
*resolves* — with `{ response: undefined, error }` — rather than being
rejected, matching the repository's own test of a failing request. -/
theorem fetch_error_resolves_counterexample :
    (dispatchFetch demoFetch () (.error demoError)
        (FetchState.empty (R := String))).1.controlCalls = ["params"] ∧
    (dispatchFetch demoFetch () (.error demoError)
        (FetchState.empty (R := String))).2 =
      .ok { response := none, error := some demoError } :=
  ⟨rfl, rfl⟩

/-- Claim C2 (amended): when a fetch action's `controlCallback` rejects, the
error is not delivered as a rejected dispatch promise — the dispatch
*resolves* with `{ response: undefined, error }` — but the runtime never
discards it: the error is stored under `error[key]` and `isFetching[key]`
is cleared, so the failure is deterministically retrievable by the caller
and from state. -/
theorem fetch_error_stored_and_returned {Args P R : Type}
    (d : FetchDescriptor Args P) (args : Args) (st : FetchState R)
    (e : FetchError)
    (hv : d.validateParams (d.argsToParams args) = none) :
    (dispatchFetch d args (.error e) st).2 =
      .ok { response := none, error := some e } ∧
    (dispatchFetch d args (.error e) st).1.error
      (d.serializeParams (d.argsToParams args)) = some e ∧
    (dispatchFetch d args (.error e) st).1.isFetching
      (d.serializeParams (d.argsToParams args)) = false := by
  have hstart : startFetch d args st =
      ({ st with
          isFetching := updS st.isFetching
            (d.serializeParams (d.argsToParams args)) true
          controlCalls := st.controlCalls ++
            [d.serializeParams (d.argsToParams args)] },
        .ok (d.serializeParams (d.argsToParams args))) := by
    unfold startFetch; rw [hv]
  unfold dispatchFetch
  rw [hstart]
  unfold settleFetch
  refine ⟨rfl, ?_, ?_⟩
  · simp [updS]
  · simp [updS]

/-- Witness for the amended C2 at concrete inputs: a rejected
`controlCallback` for `demoFetch` resolves the dispatch with the error in
the result and stores it under `error["params"]`. -/
theorem fetch_error_stored_and_returned_witness :
    demoFetch.validateParams (demoFetch.argsToParams ()) = none ∧
    ((dispatchFetch demoFetch () (.error demoError)
        (FetchState.empty (R := String))).2 =
      .ok { response := none, error := some demoError } ∧
    (dispatchFetch demoFetch () (.error demoError)
        (FetchState.empty (R := String))).1.error
      (demoFetch.serializeParams (demoFetch.argsToParams ())) =
        some demoError ∧
    (dispatchFetch demoFetch () (.error demoError)
        (FetchState.empty (R := String))).1.isFetching
      (demoFetch.serializeParams (demoFetch.argsToParams ())) = false) :=
  ⟨rfl,
    fetch_error_stored_and_returned demoFetch ()
      (FetchState.empty (R := String)) demoError rfl⟩

/-- Counterexample to C4 as stated: with the first `demoFetch` dispatch
still in flight (`isFetching["params"]` is `true`), a second dispatch of
the same generated action with the same serialized params issues a second
`controlCallback` invocation. -/
theorem fetch_no_dedup_counterexample :
    (startFetch demoFetch ()
        (FetchState.empty (R := String))).1.isFetching "params" = true ∧
    (startFetch demoFetch ()
        (startFetch demoFetch ()
          (FetchState.empty (R := String))).1).1.controlCalls =
      ["params", "params"] :=
  ⟨rfl, rfl⟩

/-- Claim C4 (amended): the generated fetch action performs no in-flight
deduplication — every dispatch that passes validation issues exactly one
new `controlCallback` invocation, regardless of whether
`isFetching[serialized params]` is already `true`; in-flight deduplication
is obtained only by routing through the Resolver Tracker
(`RESOLVE_SELECT`). -/
theorem fetch_always_issues_control {Args P R : Type}
    (d : FetchDescriptor Args P) (args : Args) (st : FetchState R)
    (hv : d.validateParams (d.argsToParams args) = none) :
    (startFetch d args st).1.controlCalls =
      st.controlCalls ++ [d.serializeParams (d.argsToParams args)] := by
  unfold startFetch
  rw [hv]

/-- Witness for the amended C4 at concrete inputs: the second dispatch of
`demoFetch` appends a second control call while the first is in flight. -/
theorem fetch_always_issues_control_witness :
    demoFetch.validateParams (demoFetch.argsToParams ()) = none ∧
    (startFetch demoFetch ()
        (startFetch demoFetch ()
          (FetchState.empty (R := String))).1).1.controlCalls =
      (startFetch demoFetch ()
          (FetchState.empty (R := String))).1.controlCalls ++
        [demoFetch.serializeParams (demoFetch.argsToParams ())] :=
  ⟨rfl,
    fetch_always_issues_control demoFetch ()
      (startFetch demoFetch () (FetchState.empty (R := String))).1 rfl⟩

/-! ## Claim about the Store Combinator -/

theorem flat_two_not_nodup {α β : Type} (f : α → List β)
    (pre mid post : List α) (p q : α) (k : β)
    (hp : k ∈ f p) (hq : k ∈ f q) :
    ¬ ((pre ++ p :: (mid ++ q :: post)).flatMap f).Nodup := by
  intro hn
  rw [List.flatMap_append, List.flatMap_cons, List.flatMap_append,
    List.flatMap_cons] at hn
  rw [List.nodup_append] at hn
  rcases hn with ⟨_, hn, _⟩
  rw [List.nodup_append] at hn
  rcases hn with ⟨_, _, hd⟩
  rw [List.disjoint_append_right, List.disjoint_append_right] at hd
  exact hd.2.1 hp hq

/-- Claim C6: if any two distinct partial store definitions passed to the
combinator share a top-level `initialState` key, define a reducer case for
the same action type, or define the same name in their `actions`,
`controls`, `selectors`, or `resolvers` maps, then combination fails with a
`KeyCollisionError` at combination time; and whenever combination succeeds
it preserves every partial's entries, never silently overwriting one
partial's entry with another's. -/
theorem combine_collision_fails {V : Type}
    (pre mid post : List (StorePart V)) (p q : StorePart V)
    (hshare : sharesKey p q) :
    combineStores (pre ++ p :: (mid ++ q :: post)) = .error .keyCollision ∧
    ∀ (qs : List (StorePart V)) (d : StorePart V),
      combineStores qs = .ok d → ∀ s ∈ qs,
        (∀ kv ∈ s.initialState, kv ∈ d.initialState) ∧
        (∀ n ∈ s.reducerCases, n ∈ d.reducerCases) ∧
        (∀ n ∈ s.actions, n ∈ d.actions) ∧
        (∀ n ∈ s.controls, n ∈ d.controls) ∧
        (∀ n ∈ s.selectors, n ∈ d.selectors) ∧
        (∀ n ∈ s.resolvers, n ∈ d.resolvers) := by
  constructor
  · have hncf : ¬ collisionFree (pre ++ p :: (mid ++ q :: post)) := by
      intro hcf
      obtain ⟨h1, h2, h3, h4, h5, h6⟩ := hcf
      rcases hshare with ⟨k, hp, hq⟩ | ⟨k, hp, hq⟩ | ⟨k, hp, hq⟩ |
        ⟨k, hp, hq⟩ | ⟨k, hp, hq⟩ | ⟨k, hp, hq⟩
      · exact flat_two_not_nodup _ pre mid post p q k hp hq h1
      · exact flat_two_not_nodup _ pre mid post p q k hp hq h2
      · exact flat_two_not_nodup _ pre mid post p q k hp hq h3
      · exact flat_two_not_nodup _ pre mid post p q k hp hq h4
      · exact flat_two_not_nodup _ pre mid post p q k hp hq h5
      · exact flat_two_not_nodup _ pre mid post p q k hp hq h6
    unfold combineStores
    rw [if_neg hncf]
  · intro qs d hok s hs
    unfold combineStores at hok
    by_cases hcf : collisionFree qs
    · rw [if_pos hcf] at hok
      injection hok with hok
      subst hok
      refine ⟨?_, ?_, ?_, ?_, ?_, ?_⟩ <;>
        exact fun x hx => List.mem_flatMap.mpr ⟨s, hs, hx⟩
    · rw [if_neg hcf] at hok
      exact Except.noConfusion hok

/-- Witness for C6 at concrete inputs: two copies of `demoPart`, both
defining the action name `"fetchFoo"`, fail to combine. -/
theorem combine_collision_fails_witness :
    sharesKey demoPart demoPart ∧
    (combineStores ([] ++ demoPart :: ([] ++ demoPart :: [])) =
        .error .keyCollision ∧
      ∀ (qs : List (StorePart Unit)) (d : StorePart Unit),
        combineStores qs = .ok d → ∀ s ∈ qs,
          (∀ kv ∈ s.initialState, kv ∈ d.initialState) ∧
          (∀ n ∈ s.reducerCases, n ∈ d.reducerCases) ∧
          (∀ n ∈ s.actions, n ∈ d.actions) ∧
          (∀ n ∈ s.controls, n ∈ d.controls) ∧
          (∀ n ∈ s.selectors, n ∈ d.selectors) ∧
          (∀ n ∈ s.resolvers, n ∈ d.resolvers)) :=
  ⟨Or.inr (Or.inr (Or.inl ⟨"fetchFoo", by decide, by decide⟩)),
    combine_collision_fails [] [] [] demoPart demoPart
      (Or.inr (Or.inr (Or.inl ⟨"fetchFoo", by decide, by decide⟩)))⟩

end SiteKit
